import Mathlib

/-!
Shallow embedding of the loan/inventory logic of the library-management
repository.  Two implementation layers exist in the source and both are
embedded here:

* the MySQL stored procedures and triggers of `schema.sql`
  (`ProcessLoan`, `ReturnBook`, `prevent_book_deletion`,
  `UpdateOverdueLoans`), which run inside one transaction each and roll
  back on error; and
* the TypeScript layer: `DatabaseStorage.createLoan` / `returnBook` /
  `renewLoan` of `server/storage.ts` together with the Express route
  handlers `POST /api/loans`, `POST /api/loans/:id/return` and
  `POST /api/loans/:id/renew`, which issue separate auto-committed
  statements with no transaction.

Dates are modelled as integer day numbers (`DATEDIFF a b = a - b`).
Money is modelled in integer cents, so the $0.50 daily fine is `50`.
Row ids are natural numbers; `AUTO_INCREMENT` on the loans table is
modelled by the `nextLoanId` field of the database state.
-/

inductive BookStatus : Type
  | available
  | checkedOut
  | missing
deriving DecidableEq, Repr

inductive LoanStatus : Type
  | active
  | returned
  | overdue
deriving DecidableEq, Repr

/-- A row of the `books` table (the fields the loan logic touches). -/
structure Book : Type where
  id : Nat
  totalCopies : Int
  availableCopies : Int
  status : BookStatus
deriving DecidableEq, Repr

/-- A row of the `loans` table. -/
structure Loan : Type where
  id : Nat
  userId : Nat
  bookId : Nat
  loanDate : Int
  dueDate : Int
  returnDate : Option Int
  renewCount : Nat
  status : LoanStatus
  fine : Int
deriving DecidableEq, Repr

/-- A row of the `users` table (only the fields the loan logic reads). -/
structure User : Type where
  id : Nat
  isActive : Bool
deriving DecidableEq, Repr

/-- The database state seen by the loan operations. -/
structure DB : Type where
  books : List Book
  loans : List Loan
  users : List User
  nextLoanId : Nat
deriving DecidableEq, Repr

/-- The typed failures of the loan operations (spec section 7 taxonomy,
plus the route-level "loan not found" failure). -/
inductive LoanError : Type
  | bookUnavailable
  | patronInactive
  | patronHasOverdueItems
  | renewalLimitExceeded
  | loanNotActive
  | loanNotFound
  | bookHasActiveLoans
deriving DecidableEq, Repr

/-- `SELECT ... FROM books WHERE id = bid` (first matching row). -/
def findBook (s : DB) (bid : Nat) : Option Book :=
  s.books.find? (fun b => decide (b.id = bid))

/-- `SELECT ... FROM loans WHERE id = lid` (first matching row). -/
def findLoan (s : DB) (lid : Nat) : Option Loan :=
  s.loans.find? (fun l => decide (l.id = lid))

/-- `SELECT ... FROM users WHERE id = uid` (first matching row). -/
def findUser (s : DB) (uid : Nat) : Option User :=
  s.users.find? (fun u => decide (u.id = uid))

/-- `SELECT available_copies INTO book_available FROM books WHERE id = ...`:
the procedure variable defaults to 0 when no row matches. -/
def bookAvail (s : DB) (bid : Nat) : Int :=
  ((findBook s bid).map Book.availableCopies).getD 0

/-- `SELECT is_active INTO user_active FROM users WHERE id = ...`:
the procedure variable defaults to FALSE when no row matches. -/
def userActive (s : DB) (uid : Nat) : Bool :=
  ((findUser s uid).map User.isActive).getD false

/-- `SELECT COUNT(*) FROM loans WHERE user_id = ... AND status = 'overdue'`. -/
def overdueCount (s : DB) (uid : Nat) : Nat :=
  s.loans.countP (fun l => decide (l.userId = uid ∧ l.status = LoanStatus.overdue))

/-- A loan still holds a physical copy: `status IN ('active', 'overdue')`. -/
def isOpen (st : LoanStatus) : Bool :=
  decide (st = LoanStatus.active ∨ st = LoanStatus.overdue)

/-- Number of open loans of one book, used by the inventory invariant. -/
def openLoanCount (loans : List Loan) (bid : Nat) : Nat :=
  loans.countP (fun l => decide (l.bookId = bid) && isOpen l.status)

/-- The stored procedure `ProcessLoan` of `schema.sql` (lines 189-244):
inside one transaction it checks availability, patron activity and the
patron's overdue count, inserts the loan and decrements the book; any
SIGNAL fires the exit handler, which rolls the whole transaction back,
so on error the returned state is the input state.  The book update
keeps the old status unless the new available count is zero
(`ELSE status END`). -/
def ProcessLoan (userId bookId : Nat) (loanDays today : Int) (s : DB) :
    DB × Option LoanError :=
  if bookAvail s bookId ≤ 0 then (s, some LoanError.bookUnavailable)
  else if userActive s userId = false then (s, some LoanError.patronInactive)
  else if 0 < overdueCount s userId then (s, some LoanError.patronHasOverdueItems)
  else
    let newLoan : Loan :=
      { id := s.nextLoanId, userId := userId, bookId := bookId,
        loanDate := today, dueDate := today + loanDays, returnDate := none,
        renewCount := 0, status := LoanStatus.active, fine := 0 }
    let books := s.books.map (fun b =>
      if b.id = bookId then
        { b with
            availableCopies := b.availableCopies - 1,
            status := if b.availableCopies - 1 = 0 then BookStatus.checkedOut
                      else b.status }
      else b)
    ({ s with loans := newLoan :: s.loans, books := books,
              nextLoanId := s.nextLoanId + 1 }, none)

/-- The stored procedure `ReturnBook` of `schema.sql` (lines 247-291).
`SELECT book_id, due_date INTO v_book_id, v_due_date FROM loans WHERE
id = p_loan_id AND status = 'active'` leaves both variables NULL when
no such row exists; the NULL comparison then leaves the fine at 0 and
the book update (`WHERE id = v_book_id`) matches no row.  The loan
update runs unconditionally on `id = p_loan_id`.  The `UpdateOverdueLoans`
BEFORE UPDATE trigger does not fire its branch here because the new
status is `returned`.  The procedure raises no error of its own. -/
def ReturnBook (loanId : Nat) (returnDate : Int) (s : DB) :
    DB × Option LoanError :=
  let found := s.loans.find? (fun l =>
    decide (l.id = loanId ∧ l.status = LoanStatus.active))
  let fine : Int :=
    match found with
    | some l => if l.dueDate < returnDate then (returnDate - l.dueDate) * 50 else 0
    | none => 0
  let loans := s.loans.map (fun l =>
    if l.id = loanId then
      { l with returnDate := some returnDate, status := LoanStatus.returned,
               fine := fine }
    else l)
  let books :=
    match found with
    | some l0 => s.books.map (fun b =>
        if b.id = l0.bookId then
          { b with availableCopies := b.availableCopies + 1,
                   status := BookStatus.available }
        else b)
    | none => s.books
  ({ s with loans := loans, books := books }, none)

/-- The `prevent_book_deletion` BEFORE DELETE trigger of `schema.sql`
(lines 377-391) guarding `DatabaseStorage.deleteBook`: when the book has
a loan with status `active` or `overdue` the trigger SIGNALs, the DELETE
statement aborts and the state is unchanged; otherwise the row is
deleted (and its loans cascade via `ON DELETE CASCADE`). -/
def deleteBook (bookId : Nat) (s : DB) : DB × Option LoanError :=
  if s.loans.any (fun l => decide (l.bookId = bookId) && isOpen l.status) then
    (s, some LoanError.bookHasActiveLoans)
  else
    ({ s with books := s.books.filter (fun b => !decide (b.id = bookId)),
              loans := s.loans.filter (fun l => !decide (l.bookId = bookId)) }, none)

/-- The body sent to `POST /api/loans`, after `insertLoanSchema.parse`. -/
structure InsertLoan : Type where
  userId : Nat
  bookId : Nat
  loanDate : Int
  dueDate : Int
deriving DecidableEq, Repr

/-- First statement of `DatabaseStorage.createLoan` (storage.ts lines
476-477): `db.insert(loans).values(loan)` with the schema defaults
`status = 'active'`, `renew_count = 0`, `fine = 0.00`.  This statement
auto-commits on its own. -/
def createLoanInsert (input : InsertLoan) (s : DB) : DB :=
  let newLoan : Loan :=
    { id := s.nextLoanId, userId := input.userId, bookId := input.bookId,
      loanDate := input.loanDate, dueDate := input.dueDate, returnDate := none,
      renewCount := 0, status := LoanStatus.active, fine := 0 }
  { s with loans := newLoan :: s.loans, nextLoanId := s.nextLoanId + 1 }

/-- Second statement of `DatabaseStorage.createLoan` (storage.ts lines
480-487): decrement `available_copies` and set the status from the new
count (`CASE WHEN available_copies - 1 = 0 THEN 'checked_out' ELSE
'available' END`).  Also auto-commits on its own. -/
def createLoanBookUpdate (bookId : Nat) (s : DB) : DB :=
  { s with books := s.books.map (fun b =>
      if b.id = bookId then
        { b with
            availableCopies := b.availableCopies - 1,
            status := if b.availableCopies - 1 = 0 then BookStatus.checkedOut
                      else BookStatus.available }
      else b) }

/-- `DatabaseStorage.createLoan` (storage.ts lines 476-490): the loan
insert followed by the book update, with no surrounding transaction. -/
def createLoan (input : InsertLoan) (s : DB) : DB :=
  createLoanBookUpdate input.bookId (createLoanInsert input s)

/-- The committed database states produced by one `createLoan` call:
each of the two statements commits separately. -/
def createLoanStates (input : InsertLoan) (s : DB) : List DB :=
  [createLoanInsert input s, createLoan input s]

/-- The route handler `POST /api/loans` (routes file lines 259-286):
it rejects with "Book is not available" when the book is missing or has
`availableCopies <= 0`, and otherwise calls `storage.createLoan`.
No patron-activity or overdue check is performed. -/
def routeCreateLoan (input : InsertLoan) (s : DB) : DB × Option LoanError :=
  match findBook s input.bookId with
  | none => (s, some LoanError.bookUnavailable)
  | some b =>
      if b.availableCopies ≤ 0 then (s, some LoanError.bookUnavailable)
      else (createLoan input s, none)

/-- The route handler `POST /api/loans/:id/return` (routes file lines
288-311) composed with `DatabaseStorage.returnBook` (storage.ts lines
501-523): a 404 when the loan does not exist, otherwise the loan is
marked returned with today's date (no fine is computed and no status
precondition is checked) and the book row gets `available_copies + 1`
and status `available`. -/
def routeReturnBook (loanId : Nat) (today : Int) (s : DB) :
    DB × Option LoanError :=
  match findLoan s loanId with
  | none => (s, some LoanError.loanNotFound)
  | some l0 =>
      let loans := s.loans.map (fun l =>
        if l.id = loanId then
          { l with status := LoanStatus.returned, returnDate := some today }
        else l)
      let books := s.books.map (fun b =>
        if b.id = l0.bookId then
          { b with availableCopies := b.availableCopies + 1,
                   status := BookStatus.available }
        else b)
      ({ s with loans := loans, books := books }, none)

/-- The route handler `POST /api/loans/:id/renew` (routes file lines
313-340) composed with `DatabaseStorage.renewLoan` (storage.ts lines
525-537): 404 when the loan does not exist, "Maximum renewals reached"
when `renewalCount >= 2` (nothing written), otherwise `renew_count + 1`
and `due_date + INTERVAL '14 days'` measured from the stored due date. -/
def routeRenewLoan (loanId : Nat) (s : DB) : DB × Option LoanError :=
  match findLoan s loanId with
  | none => (s, some LoanError.loanNotFound)
  | some l0 =>
      if 2 ≤ l0.renewCount then (s, some LoanError.renewalLimitExceeded)
      else
        ({ s with loans := s.loans.map (fun l =>
            if l.id = loanId then
              { l with renewCount := l.renewCount + 1, dueDate := l.dueDate + 14 }
            else l) }, none)

/-- The spec's derived-status relation for a book (section 3): status is
`checked_out` exactly when no copy is available, else `available`
(the manually-set `missing` override is outside this relation). -/
def statusOk (b : Book) : Prop :=
  b.status = (if b.availableCopies = 0 then BookStatus.checkedOut
              else BookStatus.available)

instance (b : Book) : Decidable (statusOk b) := by
  unfold statusOk; infer_instance

/-- Well-formedness of the database state: primary-key uniqueness for
books and loans, and freshness of the loan auto-increment counter. -/
def WF (s : DB) : Prop :=
  (s.books.map Book.id).Nodup ∧ (s.loans.map Loan.id).Nodup ∧
    ∀ l ∈ s.loans, l.id < s.nextLoanId

instance (s : DB) : Decidable (WF s) := by
  unfold WF; infer_instance

/-- The inventory invariant of spec section 8, strengthened with the
copy-accounting fact that makes it inductive: every book has a
non-negative available count, and available copies plus copies out on
open loans never exceed the total. -/
def InvDB (s : DB) : Prop :=
  ∀ b ∈ s.books,
    0 ≤ b.availableCopies ∧
      b.availableCopies + (openLoanCount s.loans b.id : Int) ≤ b.totalCopies

instance (s : DB) : Decidable (InvDB s) := by
  unfold InvDB; infer_instance

/-- One invocation of a loan-lifecycle operation. -/
inductive LibOp : Type
  | create (userId bookId : Nat) (loanDays today : Int)
  | ret (loanId : Nat) (returnDate : Int)
  | renew (loanId : Nat)
deriving DecidableEq, Repr

/-- Apply one operation: loan creation and return through the SQL
procedures, renewal through the route (the only renewal path in the
source). -/
def applyOp (op : LibOp) (s : DB) : DB :=
  match op with
  | LibOp.create uid bid days today => (ProcessLoan uid bid days today s).1
  | LibOp.ret lid rdate => (ReturnBook lid rdate s).1
  | LibOp.renew lid => (routeRenewLoan lid s).1

/-- Apply a sequence of operations, oldest first. -/
def applyOps (ops : List LibOp) (s : DB) : DB :=
  ops.foldl (fun s op => applyOp op s) s

/-! ### Generic lemmas about keyed row updates on list-modelled tables -/

theorem map_ite_id {α : Type} (key : α → Nat) (g : α → α) (k : Nat) :
    ∀ xs : List α, (∀ x ∈ xs, key x ≠ k) →
      xs.map (fun x => if key x = k then g x else x) = xs
  | [], _ => rfl
  | x :: xs, h => by
      have hx : key x ≠ k := h x (List.mem_cons_self x xs)
      simp only [List.map_cons, if_neg hx]
      rw [map_ite_id key g k xs (fun y hy => h y (List.mem_cons_of_mem x hy))]

theorem find_upd {α : Type} (key : α → Nat) (g : α → α) (k : Nat)
    (hg : ∀ x, key (g x) = key x) :
    ∀ xs : List α,
      (xs.map fun x => if key x = k then g x else x).find?
          (fun x => decide (key x = k))
        = (xs.find? fun x => decide (key x = k)).map g
  | [] => rfl
  | x :: xs => by
      by_cases h : key x = k
      · simp only [List.map_cons, if_pos h]
        rw [List.find?_cons_of_pos _ (by simp [hg, h]),
          List.find?_cons_of_pos _ (by simpa using h)]
        rfl
      · simp only [List.map_cons, if_neg h]
        rw [List.find?_cons_of_neg _ (by simpa using h),
          List.find?_cons_of_neg _ (by simpa using h)]
        exact find_upd key g k hg xs

theorem find_upd_ne {α : Type} (key : α → Nat) (g : α → α) (k q : Nat)
    (hg : ∀ x, key (g x) = key x) (hne : q ≠ k) :
    ∀ xs : List α,
      (xs.map fun x => if key x = k then g x else x).find?
          (fun x => decide (key x = q))
        = xs.find? (fun x => decide (key x = q))
  | [] => rfl
  | x :: xs => by
      by_cases h : key x = k
      · have hq : key x ≠ q := fun hh => hne (hh ▸ h ▸ rfl)
        simp only [List.map_cons, if_pos h]
        rw [List.find?_cons_of_neg _ (by simp [hg, hq]),
          List.find?_cons_of_neg _ (by simpa using hq)]
        exact find_upd_ne key g k q hg hne xs
      · by_cases hq : key x = q
        · simp only [List.map_cons, if_neg h]
          rw [List.find?_cons_of_pos _ (by simpa using hq),
            List.find?_cons_of_pos _ (by simpa using hq)]
        · simp only [List.map_cons, if_neg h]
          rw [List.find?_cons_of_neg _ (by simpa using hq),
            List.find?_cons_of_neg _ (by simpa using hq)]
          exact find_upd_ne key g k q hg hne xs

theorem find_nodup {α : Type} (key : α → Nat) (k : Nat) (x0 : α) :
    ∀ xs : List α, (xs.map key).Nodup → x0 ∈ xs → key x0 = k →
      xs.find? (fun x => decide (key x = k)) = some x0
  | [], _, hmem, _ => absurd hmem (List.not_mem_nil x0)
  | x :: xs, hnd, hmem, hk => by
      rw [List.map_cons] at hnd
      have hnd' := List.nodup_cons.mp hnd
      rcases List.mem_cons.mp hmem with rfl | hmem
      · exact List.find?_cons_of_pos _ (by simpa using hk)
      · have hx : key x ≠ k := by
          intro hxk
          exact hnd'.1 (by
            rw [hxk, ← hk]
            exact List.mem_map_of_mem key hmem)
        rw [List.find?_cons_of_neg _ (by simpa using hx)]
        exact find_nodup key k x0 xs hnd'.2 hmem hk

theorem countP_map_le {α : Type} (f : α → α) (p q : α → Bool)
    (h : ∀ x, p (f x) = true → q x = true) :
    ∀ xs : List α, (xs.map f).countP p ≤ xs.countP q
  | [] => Nat.le_refl 0
  | x :: xs => by
      have ih := countP_map_le f p q h xs
      simp only [List.map_cons, List.countP_cons]
      by_cases hx : p (f x) = true
      · rw [if_pos hx, if_pos (h x hx)]
        omega
      · rw [if_neg hx]
        by_cases hq : q x = true
        · rw [if_pos hq]; omega
        · rw [if_neg hq]; omega

theorem countP_upd {α : Type} (key : α → Nat) (g : α → α) (k : Nat)
    (p : α → Bool) (x0 : α) :
    ∀ xs : List α, (xs.map key).Nodup → x0 ∈ xs → key x0 = k →
      (xs.map fun x => if key x = k then g x else x).countP p
          + (if p x0 = true then 1 else 0)
        = xs.countP p + (if p (g x0) = true then 1 else 0)
  | [], _, hmem, _ => absurd hmem (List.not_mem_nil x0)
  | x :: xs, hnd, hmem, hk => by
      rw [List.map_cons] at hnd
      have hnd' := List.nodup_cons.mp hnd
      rcases List.mem_cons.mp hmem with rfl | hmem
      · have htail : ∀ y ∈ xs, key y ≠ k := by
          intro y hy hyk
          exact hnd'.1 (by rw [hk, ← hyk]; exact List.mem_map_of_mem key hy)
        simp only [List.map_cons, if_pos hk, map_ite_id key g k xs htail,
          List.countP_cons]
        omega
      · have hx : key x ≠ k := by
          intro hxk
          exact hnd'.1 (by
            rw [hxk, ← hk]
            exact List.mem_map_of_mem key hmem)
        have ih := countP_upd key g k p x0 xs hnd'.2 hmem hk
        simp only [List.map_cons, if_neg hx, List.countP_cons]
        omega

/-! ### Concrete example states used by witnesses and counterexamples -/

/-- A book with copies to spare. -/
def demoBook : Book :=
  { id := 1, totalCopies := 3, availableCopies := 2, status := BookStatus.available }

/-- An active patron. -/
def demoUser : User := { id := 7, isActive := true }

/-- A deactivated patron. -/
def demoInactiveUser : User := { id := 8, isActive := false }

/-- A loan of `demoBook` by `demoUser`, still active, due on day 10. -/
def demoActiveLoan : Loan :=
  { id := 1, userId := 7, bookId := 1, loanDate := 0, dueDate := 10,
    returnDate := none, renewCount := 0, status := LoanStatus.active, fine := 0 }

/-- The same loan with its stored status already flipped to overdue. -/
def demoOverdueLoan : Loan := { demoActiveLoan with status := LoanStatus.overdue }

/-- A finished loan: returned on day 12 with a recorded 77-cent fine. -/
def demoReturnedLoan : Loan :=
  { demoActiveLoan with
      status := LoanStatus.returned
      returnDate := some 12
      fine := 77 }

/-- The same loan already renewed twice. -/
def demoMaxRenewLoan : Loan := { demoActiveLoan with renewCount := 2 }

/-- Base state: one book, the two patrons, no loans yet. -/
def demoDB : DB :=
  { books := [demoBook], loans := [], users := [demoUser, demoInactiveUser],
    nextLoanId := 1 }

/-- State holding one active loan. -/
def demoDBActive : DB := { demoDB with loans := [demoActiveLoan], nextLoanId := 2 }

/-- State holding one stored-overdue loan. -/
def demoDBOverdue : DB := { demoDB with loans := [demoOverdueLoan], nextLoanId := 2 }

/-- State holding one already-returned loan. -/
def demoDBReturned : DB := { demoDB with loans := [demoReturnedLoan], nextLoanId := 2 }

/-- State holding one loan at the renewal limit. -/
def demoDBMaxRenew : DB := { demoDB with loans := [demoMaxRenewLoan], nextLoanId := 2 }

/-- The loan request `demoUser` sends for `demoBook`. -/
def demoInsert : InsertLoan := { userId := 7, bookId := 1, loanDate := 100, dueDate := 114 }

/-! ### C10 -/

/-- C10: a book that has at least one loan with status `active` or
`overdue` cannot be deleted: the `prevent_book_deletion` trigger raises
an error, the DELETE aborts and the whole state (in particular the book
row) is unchanged. -/
theorem deleteBook_blocked (s : DB) (bid : Nat)
    (h : (s.loans.any fun l => decide (l.bookId = bid) && isOpen l.status) = true) :
    deleteBook bid s = (s, some LoanError.bookHasActiveLoans) := by
  unfold deleteBook
  rw [if_pos h]

/-- Witness for C10: deleting the book with an active loan fails and
leaves the state untouched. -/
theorem deleteBook_blocked_witness :
    deleteBook 1 demoDBActive = (demoDBActive, some LoanError.bookHasActiveLoans) :=
  deleteBook_blocked demoDBActive 1 (by decide)

/-! ### C4 -/

/-- C4: for every existing loan, the renewal operation (route handler
plus `DatabaseStorage.renewLoan`) fails with the renewal-limit error and
leaves the state unchanged when `renewal_count >= 2`, and otherwise
succeeds, incrementing `renewal_count` by exactly one and extending
`due_date` by exactly 14 days from its stored value (the current date is
not consulted at all). -/
theorem renewLoan_policy (s : DB) (loanId : Nat) (l : Loan)
    (hfind : findLoan s loanId = some l) :
    (2 ≤ l.renewCount →
      routeRenewLoan loanId s = (s, some LoanError.renewalLimitExceeded)) ∧
    (l.renewCount < 2 →
      (routeRenewLoan loanId s).2 = none ∧
      findLoan (routeRenewLoan loanId s).1 loanId
        = some { l with renewCount := l.renewCount + 1, dueDate := l.dueDate + 14 }) := by
  constructor
  · intro h2
    unfold routeRenewLoan
    simp only [hfind, if_pos h2]
  · intro hlt
    unfold routeRenewLoan
    simp only [hfind, if_neg (by omega : ¬ 2 ≤ l.renewCount)]
    refine ⟨trivial, ?_⟩
    have h := find_upd Loan.id
      (fun x => { x with renewCount := x.renewCount + 1, dueDate := x.dueDate + 14 })
      loanId (fun x => rfl) s.loans
    unfold findLoan at hfind ⊢
    rw [h, hfind]
    rfl

/-- Witness for C4: the third renewal of a twice-renewed loan is
rejected with the state unchanged, and renewing a fresh loan due on day
10 moves the due date to day 24 with one renewal recorded. -/
theorem renewLoan_policy_witness :
    (routeRenewLoan 1 demoDBMaxRenew = (demoDBMaxRenew, some LoanError.renewalLimitExceeded)) ∧
    (findLoan (routeRenewLoan 1 demoDBActive).1 1
      = some { demoActiveLoan with
                 renewCount := demoActiveLoan.renewCount + 1
                 dueDate := demoActiveLoan.dueDate + 14 }) :=
  ⟨(renewLoan_policy demoDBMaxRenew 1 demoMaxRenewLoan (by decide)).1 (by decide),
   ((renewLoan_policy demoDBActive 1 demoActiveLoan (by decide)).2 (by decide)).2⟩

/-! ### C2 -/

/-- C2 counterexample: the loan-creation path actually served by the
application (route `POST /api/loans` + `DatabaseStorage.createLoan`)
checks only book availability.  For an inactive patron (user 8) and an
available book it succeeds and inserts a loan row instead of failing
with the patron-inactive error, refuting the claimed equivalence. -/
theorem createLoan_preconditions_cex :
    userActive demoDB 8 = false ∧
    (routeCreateLoan { demoInsert with userId := 8 } demoDB).2 = none ∧
    (routeCreateLoan { demoInsert with userId := 8 } demoDB).1.loans.length = 1 := by
  decide

/-- C2 amended: the SQL procedure `ProcessLoan` does enforce the claimed
equivalence — it succeeds exactly when the book has a positive available
count, the patron is active and the patron has no overdue loans, and
otherwise fails with the corresponding typed error leaving the state
unchanged (the checks are ordered: availability, then activity, then
overdue).  The TypeScript route checks only availability: on a book with
no available copies (or a missing book) it fails with the
book-unavailable error and performs no write.  It performs no
patron-activity or overdue check (see the counterexample). -/
theorem ProcessLoan_preconditions (uid bid : Nat) (days today : Int) (s : DB) :
    ((ProcessLoan uid bid days today s).2 = none ↔
      (0 < bookAvail s bid ∧ userActive s uid = true ∧ overdueCount s uid = 0)) ∧
    (bookAvail s bid ≤ 0 →
      ProcessLoan uid bid days today s = (s, some LoanError.bookUnavailable)) ∧
    (0 < bookAvail s bid → userActive s uid = false →
      ProcessLoan uid bid days today s = (s, some LoanError.patronInactive)) ∧
    (0 < bookAvail s bid → userActive s uid = true → 0 < overdueCount s uid →
      ProcessLoan uid bid days today s = (s, some LoanError.patronHasOverdueItems)) ∧
    (∀ input : InsertLoan, bookAvail s input.bookId ≤ 0 →
      routeCreateLoan input s = (s, some LoanError.bookUnavailable)) := by
  refine ⟨?_, ?_, ?_, ?_, ?_⟩
  · unfold ProcessLoan
    split_ifs with h1 h2 h3
    · constructor
      · intro h; exact absurd h (by simp)
      · rintro ⟨ha, -, -⟩; omega
    · constructor
      · intro h; exact absurd h (by simp)
      · rintro ⟨-, ha, -⟩; exact absurd ha (by simpa using h2)
    · constructor
      · intro h; exact absurd h (by simp)
      · rintro ⟨-, -, ha⟩; omega
    · constructor
      · intro _
        refine ⟨by omega, ?_, by omega⟩
        cases hua : userActive s uid with
        | true => rfl
        | false => exact absurd hua h2
      · intro _; rfl
  · intro h1
    unfold ProcessLoan
    rw [if_pos h1]
  · intro h1 h2
    unfold ProcessLoan
    rw [if_neg (by omega : ¬ bookAvail s bid ≤ 0), if_pos h2]
  · intro h1 h2 h3
    unfold ProcessLoan
    rw [if_neg (by omega : ¬ bookAvail s bid ≤ 0),
      if_neg (by simp [h2] : ¬ userActive s uid = false), if_pos h3]
  · intro input hle
    unfold routeCreateLoan
    cases hb : findBook s input.bookId with
    | none => rfl
    | some b =>
        have hb0 : b.availableCopies ≤ 0 := by
          unfold bookAvail at hle
          rw [hb] at hle
          simpa using hle
        simp only [if_pos hb0]

/-- Witness for C2's amended statement: in the demo state, `ProcessLoan`
rejects the inactive patron 8 without writing, and succeeds for the
active patron 7. -/
theorem ProcessLoan_preconditions_witness :
    ProcessLoan 8 1 14 100 demoDB = (demoDB, some LoanError.patronInactive) ∧
    (ProcessLoan 7 1 14 100 demoDB).2 = none :=
  ⟨(ProcessLoan_preconditions 8 1 14 100 demoDB).2.2.1 (by decide) (by decide),
   (ProcessLoan_preconditions 7 1 14 100 demoDB).1.mpr ⟨by decide, by decide, by decide⟩⟩

/-! ### C3 -/

/-- C3 counterexample: a loan whose stored status is `overdue` (due day
10, returned day 15, five days late) gets fine 0 from `ReturnBook`
instead of the claimed 5 x 50 = 250 cents: the procedure's row lookup is
restricted to `status = 'active'`, so for a stored-`overdue` loan the
due date stays NULL and the fine stays 0, refuting the
"regardless of whether its stored status is active or overdue" part. -/
theorem returnFine_cex :
    (findLoan demoDBOverdue 1).map Loan.status = some LoanStatus.overdue ∧
    (findLoan demoDBOverdue 1).map Loan.dueDate = some 10 ∧
    (findLoan (ReturnBook 1 15 demoDBOverdue).1 1).map Loan.fine = some 0 := by
  decide

/-- C3 amended: the fine formula holds only on the SQL path and only for
loans whose stored status is `active`: for such a loan `ReturnBook`
records fine `(return_date - due_date) * 50` cents when the return is
late and 0 otherwise (so a loan due 2024-01-10 returned 2024-01-15
yields 250 cents = 2.50).  A stored-`overdue` loan gets fine 0 (see the
counterexample), and the TypeScript return path records no fine at all:
it leaves the stored fine unchanged. -/
theorem returnFine_amended :
    (∀ (s : DB) (loanId : Nat) (rdate : Int) (l0 : Loan),
      (s.loans.map Loan.id).Nodup →
      s.loans.find? (fun l => decide (l.id = loanId ∧ l.status = LoanStatus.active))
        = some l0 →
      findLoan (ReturnBook loanId rdate s).1 loanId
        = some { l0 with
                 returnDate := some rdate
                 status := LoanStatus.returned
                 fine := if l0.dueDate < rdate then (rdate - l0.dueDate) * 50 else 0 }) ∧
    (∀ (s : DB) (loanId : Nat) (today : Int) (l0 : Loan),
      findLoan s loanId = some l0 →
      (findLoan (routeReturnBook loanId today s).1 loanId).map Loan.fine
        = some l0.fine) := by
  constructor
  · intro s loanId rdate l0 hnd hfound
    have hprop := List.find?_some hfound
    rw [decide_eq_true_eq] at hprop
    have hmem := List.mem_of_find?_eq_some hfound
    have hfl : findLoan s loanId = some l0 :=
      find_nodup Loan.id loanId l0 s.loans hnd hmem hprop.1
    unfold ReturnBook
    simp only [hfound]
    unfold findLoan at hfl ⊢
    dsimp only
    rw [find_upd Loan.id
      (fun l => { l with
                  returnDate := some rdate
                  status := LoanStatus.returned
                  fine := if l0.dueDate < rdate then (rdate - l0.dueDate) * 50 else 0 })
      loanId (fun x => rfl) s.loans, hfl]
    rfl
  · intro s loanId today l0 hfind
    unfold routeReturnBook
    simp only [hfind]
    unfold findLoan at hfind ⊢
    dsimp only
    rw [find_upd Loan.id
      (fun l => { l with returnDate := some today, status := LoanStatus.returned })
      loanId (fun x => rfl) s.loans, hfind]
    rfl

/-- Witness for C3's amended statement: returning the stored-`active`
demo loan (due day 10) on day 15 records exactly 250 cents, the spec's
$2.50 example. -/
theorem returnFine_witness :
    (findLoan (ReturnBook 1 15 demoDBActive).1 1
      = some { demoActiveLoan with
               returnDate := some 15
               status := LoanStatus.returned
               fine := if demoActiveLoan.dueDate < 15 then
                         ((15 : Int) - demoActiveLoan.dueDate) * 50 else 0 }) ∧
    (if demoActiveLoan.dueDate < 15 then
       ((15 : Int) - demoActiveLoan.dueDate) * 50 else 0) = 250 :=
  ⟨returnFine_amended.1 demoDBActive 1 15 demoActiveLoan (by decide) (by decide),
   by decide⟩

/-! ### C5 -/

/-- C5 counterexample: calling `ReturnBook` on a loan whose status is
already `returned` does not fail with any loan-not-active error — it
reports success and even overwrites the stored return date (day 12
becomes day 20), refuting both halves of the claim. -/
theorem returnNotActive_cex :
    (findLoan demoDBReturned 1).map Loan.status = some LoanStatus.returned ∧
    (ReturnBook 1 20 demoDBReturned).2 = none ∧
    (findLoan (ReturnBook 1 20 demoDBReturned).1 1).map Loan.returnDate
      = some (some 20) ∧
    (findLoan demoDBReturned 1).map Loan.returnDate = some (some 12) := by
  decide

/-- C5 amended: no path implements the claimed precondition.  The SQL
`ReturnBook` never fails; the TypeScript route fails only when the loan
does not exist (leaving the state unchanged), and for an existing loan
of any status it marks the loan returned with the given date and
increments the book's available count; and for an existing loan whose
status is not `active`, the SQL `ReturnBook` leaves every book row
unchanged while still stamping the loan returned with fine 0. -/
theorem returnLoan_behavior :
    (∀ (s : DB) (lid : Nat) (r : Int), (ReturnBook lid r s).2 = none) ∧
    (∀ (s : DB) (lid : Nat) (t : Int), findLoan s lid = none →
      routeReturnBook lid t s = (s, some LoanError.loanNotFound)) ∧
    (∀ (s : DB) (lid : Nat) (t : Int) (l0 : Loan), findLoan s lid = some l0 →
      (routeReturnBook lid t s).2 = none ∧
      findLoan (routeReturnBook lid t s).1 lid
        = some { l0 with status := LoanStatus.returned, returnDate := some t } ∧
      ∀ b0 : Book, findBook s l0.bookId = some b0 →
        findBook (routeReturnBook lid t s).1 l0.bookId
          = some { b0 with
                   availableCopies := b0.availableCopies + 1
                   status := BookStatus.available }) ∧
    (∀ (s : DB) (lid : Nat) (r : Int) (l0 : Loan),
      (s.loans.map Loan.id).Nodup → findLoan s lid = some l0 →
      l0.status ≠ LoanStatus.active →
      (ReturnBook lid r s).1.books = s.books ∧
      findLoan (ReturnBook lid r s).1 lid
        = some { l0 with
                 returnDate := some r
                 status := LoanStatus.returned
                 fine := 0 }) := by
  refine ⟨?_, ?_, ?_, ?_⟩
  · intro s lid r
    rfl
  · intro s lid t hnone
    unfold routeReturnBook
    simp only [hnone]
  · intro s lid t l0 hfind
    unfold routeReturnBook
    simp only [hfind]
    refine ⟨trivial, ?_, ?_⟩
    · unfold findLoan at hfind ⊢
      dsimp only
      rw [find_upd Loan.id
        (fun l => { l with status := LoanStatus.returned, returnDate := some t })
        lid (fun x => rfl) s.loans, hfind]
      rfl
    · intro b0 hb0
      unfold findBook at hb0 ⊢
      dsimp only
      rw [find_upd Book.id
        (fun b => { b with
                    availableCopies := b.availableCopies + 1
                    status := BookStatus.available })
        l0.bookId (fun x => rfl) s.books, hb0]
      rfl
  · intro s lid r l0 hnd hfind hact
    unfold findLoan at hfind
    have hp0 := List.find?_some hfind
    rw [decide_eq_true_eq] at hp0
    have hm0 := List.mem_of_find?_eq_some hfind
    have hnone : s.loans.find?
        (fun l => decide (l.id = lid ∧ l.status = LoanStatus.active)) = none := by
      cases hf : s.loans.find?
          (fun l => decide (l.id = lid ∧ l.status = LoanStatus.active)) with
      | none => rfl
      | some l1 =>
          have hp := List.find?_some hf
          rw [decide_eq_true_eq] at hp
          have hm1 := List.mem_of_find?_eq_some hf
          have heq : l1 = l0 :=
            List.inj_on_of_nodup_map hnd hm1 hm0 (by rw [hp.1, hp0])
          exact absurd (heq ▸ hp.2) hact
    unfold ReturnBook
    simp only [hnone]
    refine ⟨trivial, ?_⟩
    unfold findLoan
    dsimp only
    rw [find_upd Loan.id
      (fun l => { l with
                  returnDate := some r
                  status := LoanStatus.returned
                  fine := 0 })
      lid (fun x => rfl) s.loans, hfind]
    rfl

/-- Witness for C5's amended statement: a missing loan id is the only
rejected case, and returning the stored-`overdue` demo loan succeeds. -/
theorem returnLoan_behavior_witness :
    (routeReturnBook 99 20 demoDBReturned
      = (demoDBReturned, some LoanError.loanNotFound)) ∧
    ((routeReturnBook 1 20 demoDBOverdue).2 = none) :=
  ⟨returnLoan_behavior.2.1 demoDBReturned 99 20 (by decide),
   (returnLoan_behavior.2.2.1 demoDBOverdue 1 20 demoOverdueLoan (by decide)).1⟩

/-! ### C8 -/

/-- C8 counterexample: renewing an already-returned loan (stored due
day 10, zero renewals) is accepted by the renewal route and mutates the
terminal loan: the due date moves to day 24 and the renewal count to 1,
refuting the claim that no operation modifies a returned loan. -/
theorem returnedTerminal_cex :
    (findLoan demoDBReturned 1).map Loan.status = some LoanStatus.returned ∧
    (findLoan demoDBReturned 1).map Loan.dueDate = some 10 ∧
    (routeRenewLoan 1 demoDBReturned).2 = none ∧
    (findLoan (routeRenewLoan 1 demoDBReturned).1 1).map Loan.dueDate = some 24 ∧
    (findLoan (routeRenewLoan 1 demoDBReturned).1 1).map Loan.renewCount = some 1 := by
  decide

/-- C8 amended: only the status itself is stable: a returned loan's
status is never changed by renewal or return (renewal preserves status,
return date and fine of every loan, and both return paths always stamp
status `returned`, so a returned loan stays returned); but the loan is
not terminal in its other fields — renewal increments `renewal_count`
and shifts `due_date` of a returned loan (see the counterexample), both
return paths overwrite `return_date`, and the SQL `ReturnBook` resets
its fine to 0. -/
theorem returnedStatus_stable :
    (∀ (s : DB) (lid : Nat) (l0 : Loan), findLoan s lid = some l0 →
      (findLoan (routeRenewLoan lid s).1 lid).map Loan.status = some l0.status ∧
      (findLoan (routeRenewLoan lid s).1 lid).map Loan.returnDate
        = some l0.returnDate ∧
      (findLoan (routeRenewLoan lid s).1 lid).map Loan.fine = some l0.fine) ∧
    (∀ (s : DB) (lid : Nat) (t : Int) (l0 : Loan), findLoan s lid = some l0 →
      (findLoan (routeReturnBook lid t s).1 lid).map Loan.dueDate
        = some l0.dueDate ∧
      (findLoan (routeReturnBook lid t s).1 lid).map Loan.renewCount
        = some l0.renewCount ∧
      (findLoan (routeReturnBook lid t s).1 lid).map Loan.status
        = some LoanStatus.returned) ∧
    (∀ (s : DB) (lid : Nat) (r : Int) (l0 : Loan), findLoan s lid = some l0 →
      (findLoan (ReturnBook lid r s).1 lid).map Loan.dueDate = some l0.dueDate ∧
      (findLoan (ReturnBook lid r s).1 lid).map Loan.renewCount
        = some l0.renewCount ∧
      (findLoan (ReturnBook lid r s).1 lid).map Loan.status
        = some LoanStatus.returned) := by
  refine ⟨?_, ?_, ?_⟩
  · intro s lid l0 hfind
    unfold routeRenewLoan
    simp only [hfind]
    by_cases h2 : 2 ≤ l0.renewCount
    · simp only [if_pos h2]
      rw [hfind]
      exact ⟨rfl, rfl, rfl⟩
    · simp only [if_neg h2]
      unfold findLoan at hfind ⊢
      dsimp only
      rw [find_upd Loan.id
        (fun l => { l with renewCount := l.renewCount + 1, dueDate := l.dueDate + 14 })
        lid (fun x => rfl) s.loans, hfind]
      exact ⟨rfl, rfl, rfl⟩
  · intro s lid t l0 hfind
    unfold routeReturnBook
    simp only [hfind]
    unfold findLoan at hfind ⊢
    dsimp only
    rw [find_upd Loan.id
      (fun l => { l with status := LoanStatus.returned, returnDate := some t })
      lid (fun x => rfl) s.loans, hfind]
    exact ⟨rfl, rfl, rfl⟩
  · intro s lid r l0 hfind
    unfold ReturnBook
    cases hf : s.loans.find?
        (fun l => decide (l.id = lid ∧ l.status = LoanStatus.active)) with
    | none =>
        simp only [hf]
        unfold findLoan at hfind ⊢
        dsimp only
        rw [find_upd Loan.id
          (fun l => { l with
                      returnDate := some r
                      status := LoanStatus.returned
                      fine := 0 })
          lid (fun x => rfl) s.loans, hfind]
        exact ⟨rfl, rfl, rfl⟩
    | some l1 =>
        simp only [hf]
        unfold findLoan at hfind ⊢
        dsimp only
        rw [find_upd Loan.id
          (fun l => { l with
                      returnDate := some r
                      status := LoanStatus.returned
                      fine := if l1.dueDate < r then (r - l1.dueDate) * 50 else 0 })
          lid (fun x => rfl) s.loans, hfind]
        exact ⟨rfl, rfl, rfl⟩

/-- Witness for C8's amended statement: the returned demo loan keeps
status `returned` through a renewal and through a second SQL return. -/
theorem returnedStatus_stable_witness :
    ((findLoan (routeRenewLoan 1 demoDBReturned).1 1).map Loan.status
      = some demoReturnedLoan.status) ∧
    ((findLoan (ReturnBook 1 20 demoDBReturned).1 1).map Loan.status
      = some LoanStatus.returned) :=
  ⟨((returnedStatus_stable.1 demoDBReturned 1 demoReturnedLoan (by decide)).1),
   ((returnedStatus_stable.2.2 demoDBReturned 1 20 demoReturnedLoan (by decide)).2.2)⟩

/-! ### C9 -/

/-- C9: whenever the loan-creation route succeeds, immediately returning
the loan it created (its id is the state's next loan id) succeeds and
restores the book's available-copy count to exactly its value before the
creation: the creation decrements the row by one and the return
increments the same row by one. -/
theorem createThenReturn_restores (s : DB) (input : InsertLoan) (t : Int) (s1 : DB)
    (h : routeCreateLoan input s = (s1, none)) :
    (routeReturnBook s.nextLoanId t s1).2 = none ∧
    (findBook (routeReturnBook s.nextLoanId t s1).1 input.bookId).map
        Book.availableCopies
      = (findBook s input.bookId).map Book.availableCopies := by
  unfold routeCreateLoan at h
  cases hb : findBook s input.bookId with
  | none =>
      rw [hb] at h
      dsimp only at h
      exact absurd (congrArg Prod.snd h) (by simp)
  | some b =>
      rw [hb] at h
      dsimp only at h
      by_cases hle : b.availableCopies ≤ 0
      · rw [if_pos hle] at h
        exact absurd (congrArg Prod.snd h) (by simp)
      · rw [if_neg hle] at h
        injection h with h1 h2
        subst h1
        have hfindNew : findLoan (createLoan input s) s.nextLoanId
            = some ⟨s.nextLoanId, input.userId, input.bookId, input.loanDate,
                input.dueDate, none, 0, LoanStatus.active, 0⟩ := by
          unfold findLoan createLoan createLoanBookUpdate createLoanInsert
          dsimp only
          exact List.find?_cons_of_pos _ (by simp)
        unfold routeReturnBook
        simp only [hfindNew]
        refine ⟨trivial, ?_⟩
        unfold findBook
        unfold createLoan createLoanBookUpdate createLoanInsert
        rw [find_upd Book.id
          (fun x => { x with
                      availableCopies := x.availableCopies + 1
                      status := BookStatus.available })
          input.bookId (fun x => rfl) _]
        rw [find_upd Book.id
          (fun x => { x with
                      availableCopies := x.availableCopies - 1
                      status := if x.availableCopies - 1 = 0 then BookStatus.checkedOut
                                else BookStatus.available })
          input.bookId (fun x => rfl) s.books]
        unfold findBook at hb
        rw [hb]
        simp [Int.sub_add_cancel]

/-- Witness for C9: creating and then returning a loan of the demo book
leaves its available count at the original value 2. -/
theorem createThenReturn_restores_witness :
    (routeReturnBook demoDB.nextLoanId 5 (routeCreateLoan demoInsert demoDB).1).2
      = none ∧
    (findBook (routeReturnBook demoDB.nextLoanId 5
        (routeCreateLoan demoInsert demoDB).1).1 demoInsert.bookId).map
        Book.availableCopies
      = (findBook demoDB demoInsert.bookId).map Book.availableCopies :=
  createThenReturn_restores demoDB demoInsert 5
    (routeCreateLoan demoInsert demoDB).1 (by decide)

/-! ### C7 -/

/-- C7: after a successful loan creation or return, the affected book's
derived status is `checked_out` exactly when its available count is 0
and `available` otherwise.  The TypeScript creation path recomputes the
status from the new count outright; the TypeScript return path and the
SQL `ReturnBook` stamp `available`, correct because the incremented
count of a non-negative count is positive; the SQL `ProcessLoan` keeps
the old status when copies remain (`ELSE status END`), correct provided
the book's status satisfied the relation before the call. -/
theorem derivedStatus :
    (∀ (s : DB) (input : InsertLoan) (s1 : DB),
      routeCreateLoan input s = (s1, none) →
      ∀ b : Book, findBook s1 input.bookId = some b → statusOk b) ∧
    (∀ (s : DB) (lid : Nat) (t : Int) (l0 : Loan) (b0 : Book),
      findLoan s lid = some l0 → findBook s l0.bookId = some b0 →
      0 ≤ b0.availableCopies →
      ∀ b : Book, findBook (routeReturnBook lid t s).1 l0.bookId = some b →
        statusOk b) ∧
    (∀ (uid bid : Nat) (days today : Int) (s s1 : DB) (b0 : Book),
      findBook s bid = some b0 → statusOk b0 →
      ProcessLoan uid bid days today s = (s1, none) →
      ∀ b : Book, findBook s1 bid = some b → statusOk b) ∧
    (∀ (s : DB) (lid : Nat) (r : Int) (l1 : Loan) (b0 : Book),
      s.loans.find? (fun l => decide (l.id = lid ∧ l.status = LoanStatus.active))
        = some l1 →
      findBook s l1.bookId = some b0 → 0 ≤ b0.availableCopies →
      ∀ b : Book, findBook (ReturnBook lid r s).1 l1.bookId = some b →
        statusOk b) := by
  refine ⟨?_, ?_, ?_, ?_⟩
  · intro s input s1 h b hb
    unfold routeCreateLoan at h
    cases hb0 : findBook s input.bookId with
    | none =>
        rw [hb0] at h
        dsimp only at h
        exact absurd (congrArg Prod.snd h) (by simp)
    | some b0 =>
        rw [hb0] at h
        dsimp only at h
        by_cases hle : b0.availableCopies ≤ 0
        · rw [if_pos hle] at h
          exact absurd (congrArg Prod.snd h) (by simp)
        · rw [if_neg hle] at h
          injection h with h1 h2
          subst h1
          unfold findBook createLoan createLoanBookUpdate createLoanInsert at hb
          dsimp only at hb
          rw [find_upd Book.id
            (fun x => { x with
                        availableCopies := x.availableCopies - 1
                        status := if x.availableCopies - 1 = 0 then
                            BookStatus.checkedOut
                          else BookStatus.available })
            input.bookId (fun x => rfl) s.books] at hb
          unfold findBook at hb0
          rw [hb0] at hb
          injection hb with hb
          subst hb
          unfold statusOk
          rfl
  · intro s lid t l0 b0 hfind hb0 hnn b hb
    unfold routeReturnBook at hb
    simp only [hfind] at hb
    unfold findBook at hb hb0
    dsimp only at hb
    rw [find_upd Book.id
      (fun x => { x with
                  availableCopies := x.availableCopies + 1
                  status := BookStatus.available })
      l0.bookId (fun x => rfl) s.books, hb0] at hb
    injection hb with hb
    subst hb
    unfold statusOk
    dsimp only
    rw [if_neg (by omega : ¬ b0.availableCopies + 1 = 0)]
  · intro uid bid days today s s1 b0 hb0 hok h b hb
    unfold ProcessLoan at h
    split_ifs at h with h1 h2 h3
    · exact absurd (congrArg Prod.snd h) (by simp)
    · exact absurd (congrArg Prod.snd h) (by simp)
    · exact absurd (congrArg Prod.snd h) (by simp)
    · injection h with hst h2'
      subst hst
      unfold findBook at hb
      dsimp only at hb
      rw [find_upd Book.id
        (fun x => { x with
                    availableCopies := x.availableCopies - 1
                    status := if x.availableCopies - 1 = 0 then BookStatus.checkedOut
                              else x.status })
        bid (fun x => rfl) s.books] at hb
      unfold findBook at hb0
      rw [hb0] at hb
      injection hb with hb
      subst hb
      have hpos : 0 < b0.availableCopies := by
        unfold bookAvail findBook at h1
        rw [hb0] at h1
        simp at h1
        omega
      unfold statusOk at hok ⊢
      dsimp only
      by_cases hz : b0.availableCopies - 1 = 0
      · rw [if_pos hz, if_pos hz]
      · rw [if_neg hz, if_neg hz, hok,
          if_neg (by omega : ¬ b0.availableCopies = 0)]
  · intro s lid r l1 b0 hfound hb0 hnn b hb
    unfold ReturnBook at hb
    simp only [hfound] at hb
    unfold findBook at hb hb0
    dsimp only at hb
    rw [find_upd Book.id
      (fun x => { x with
                  availableCopies := x.availableCopies + 1
                  status := BookStatus.available })
      l1.bookId (fun x => rfl) s.books, hb0] at hb
    injection hb with hb
    subst hb
    unfold statusOk
    dsimp only
    rw [if_neg (by omega : ¬ b0.availableCopies + 1 = 0)]

/-- Witness for C7: after the demo patron borrows the demo book (2 of 3
copies available), the affected row reads 1 copy available with status
`available`, satisfying the derived-status relation. -/
theorem derivedStatus_witness :
    statusOk { id := 1, totalCopies := 3, availableCopies := 1,
               status := BookStatus.available } :=
  derivedStatus.1 demoDB demoInsert (routeCreateLoan demoInsert demoDB).1
    (by decide) _ (by decide)

/-! ### C1 -/

/-- C1 counterexample: `DatabaseStorage.createLoan` issues its two
writes as separate auto-committed statements with no transaction, so the
committed state after its first statement already contains the new loan
row while the book's available count is still undecremented (2 of 2) —
a reachable post-state in which one write is applied without the other,
refuting the all-or-nothing claim for the TypeScript path. -/
theorem createLoan_atomicity_cex :
    (createLoanStates demoInsert demoDB).head?
      = some (createLoanInsert demoInsert demoDB) ∧
    (findLoan (createLoanInsert demoInsert demoDB) 1).map Loan.bookId = some 1 ∧
    (findBook (createLoanInsert demoInsert demoDB) 1).map Book.availableCopies
      = some 2 ∧
    (findBook demoDB 1).map Book.availableCopies = some 2 := by
  decide

/-- C1 amended: the SQL `ProcessLoan` is atomic — on any failure the
transaction rolls back and the state is exactly the input state, and on
success both writes (the loan insert and the book decrement) are applied
in the single committed post-state.  The TypeScript `createLoan` also
applies both writes in every run that completes, but its intermediate
committed state exposes the loan without the decrement (see the
counterexample). -/
theorem createLoan_atomicity :
    (∀ (uid bid : Nat) (days today : Int) (s s1 : DB) (e : LoanError),
      ProcessLoan uid bid days today s = (s1, some e) → s1 = s) ∧
    (∀ (uid bid : Nat) (days today : Int) (s s1 : DB),
      ProcessLoan uid bid days today s = (s1, none) →
      findLoan s1 s.nextLoanId
        = some ⟨s.nextLoanId, uid, bid, today, today + days, none, 0,
            LoanStatus.active, 0⟩ ∧
      ∀ b0 : Book, findBook s bid = some b0 →
        findBook s1 bid
          = some { b0 with
                   availableCopies := b0.availableCopies - 1
                   status := if b0.availableCopies - 1 = 0 then
                       BookStatus.checkedOut
                     else b0.status }) ∧
    (∀ (input : InsertLoan) (s : DB),
      findLoan (createLoan input s) s.nextLoanId
        = some ⟨s.nextLoanId, input.userId, input.bookId, input.loanDate,
            input.dueDate, none, 0, LoanStatus.active, 0⟩ ∧
      ∀ b0 : Book, findBook s input.bookId = some b0 →
        findBook (createLoan input s) input.bookId
          = some { b0 with
                   availableCopies := b0.availableCopies - 1
                   status := if b0.availableCopies - 1 = 0 then
                       BookStatus.checkedOut
                     else BookStatus.available }) := by
  refine ⟨?_, ?_, ?_⟩
  · intro uid bid days today s s1 e h
    unfold ProcessLoan at h
    split_ifs at h with h1 h2 h3
    · injection h with ha hb
      exact ha.symm
    · injection h with ha hb
      exact ha.symm
    · injection h with ha hb
      exact ha.symm
    · exact absurd (congrArg Prod.snd h) (by simp)
  · intro uid bid days today s s1 h
    unfold ProcessLoan at h
    split_ifs at h with h1 h2 h3
    · exact absurd (congrArg Prod.snd h) (by simp)
    · exact absurd (congrArg Prod.snd h) (by simp)
    · exact absurd (congrArg Prod.snd h) (by simp)
    · injection h with ha hb
      subst ha
      constructor
      · unfold findLoan
        dsimp only
        exact List.find?_cons_of_pos _ (by simp)
      · intro b0 hb0
        unfold findBook
        dsimp only
        rw [find_upd Book.id
          (fun x => { x with
                      availableCopies := x.availableCopies - 1
                      status := if x.availableCopies - 1 = 0 then
                          BookStatus.checkedOut
                        else x.status })
          bid (fun x => rfl) s.books]
        unfold findBook at hb0
        rw [hb0]
        rfl
  · intro input s
    constructor
    · unfold findLoan createLoan createLoanBookUpdate createLoanInsert
      dsimp only
      exact List.find?_cons_of_pos _ (by simp)
    · intro b0 hb0
      unfold findBook createLoan createLoanBookUpdate createLoanInsert
      dsimp only
      rw [find_upd Book.id
        (fun x => { x with
                    availableCopies := x.availableCopies - 1
                    status := if x.availableCopies - 1 = 0 then
                        BookStatus.checkedOut
                      else BookStatus.available })
        input.bookId (fun x => rfl) s.books]
      unfold findBook at hb0
      rw [hb0]
      rfl

/-- Witness for C1's amended statement: a successful `ProcessLoan` in
the demo state shows both writes in its committed post-state. -/
theorem createLoan_atomicity_witness :
    (findLoan (ProcessLoan 7 1 14 100 demoDB).1 demoDB.nextLoanId
      = some ⟨demoDB.nextLoanId, 7, 1, 100, 100 + 14, none, 0,
          LoanStatus.active, 0⟩) ∧
    (findBook (ProcessLoan 7 1 14 100 demoDB).1 1
      = some { demoBook with
               availableCopies := demoBook.availableCopies - 1
               status := if demoBook.availableCopies - 1 = 0 then
                   BookStatus.checkedOut
                 else demoBook.status }) :=
  ⟨(createLoan_atomicity.2.1 7 1 14 100 demoDB (ProcessLoan 7 1 14 100 demoDB).1
      (by decide)).1,
   (createLoan_atomicity.2.1 7 1 14 100 demoDB (ProcessLoan 7 1 14 100 demoDB).1
      (by decide)).2 demoBook (by decide)⟩

/-! ### C6: step lemmas for the inventory invariant -/

theorem countP_map_eq {α : Type} (f : α → α) (p : α → Bool)
    (h : ∀ x, p (f x) = p x) (xs : List α) :
    (xs.map f).countP p = xs.countP p := by
  induction xs with
  | nil => rfl
  | cons x xs ih => simp only [List.map_cons, List.countP_cons, ih, h]

theorem map_key_upd {α : Type} (key : α → Nat) (g : α → α) (k : Nat)
    (hg : ∀ x, key (g x) = key x) (xs : List α) :
    (xs.map fun x => if key x = k then g x else x).map key = xs.map key := by
  induction xs with
  | nil => rfl
  | cons x xs ih =>
      simp only [List.map_cons, ih]
      by_cases h : key x = k
      · rw [if_pos h, hg]
      · rw [if_neg h]

theorem step_renew (lid : Nat) (s : DB) (hw : WF s) (hi : InvDB s) :
    WF (routeRenewLoan lid s).1 ∧ InvDB (routeRenewLoan lid s).1 := by
  unfold routeRenewLoan
  cases hfind : findLoan s lid with
  | none =>
      simp only [hfind]
      exact ⟨hw, hi⟩
  | some l0 =>
      simp only [hfind]
      by_cases h2 : 2 ≤ l0.renewCount
      · simp only [if_pos h2]
        exact ⟨hw, hi⟩
      · simp only [if_neg h2]
        obtain ⟨hbnd, hlnd, hlt⟩ := hw
        refine ⟨⟨hbnd, ?_, ?_⟩, ?_⟩
        · dsimp only
          rw [map_key_upd Loan.id
            (fun l => { l with
                        renewCount := l.renewCount + 1
                        dueDate := l.dueDate + 14 })
            lid (fun x => rfl) s.loans]
          exact hlnd
        · intro l hl
          dsimp only at hl ⊢
          rw [List.mem_map] at hl
          obtain ⟨l1, hl1, rfl⟩ := hl
          by_cases h : l1.id = lid
          · rw [if_pos h]
            exact hlt l1 hl1
          · rw [if_neg h]
            exact hlt l1 hl1
        · intro b hb
          dsimp only at hb ⊢
          have hInv := hi b hb
          have hcount : openLoanCount (s.loans.map fun l =>
              if l.id = lid then
                { l with renewCount := l.renewCount + 1, dueDate := l.dueDate + 14 }
              else l) b.id = openLoanCount s.loans b.id := by
            unfold openLoanCount
            refine countP_map_eq _ _ ?_ s.loans
            intro x
            by_cases h : x.id = lid
            · rw [if_pos h]
            · rw [if_neg h]
          rw [hcount]
          exact hInv

theorem step_process (uid bid : Nat) (days today : Int) (s : DB)
    (hw : WF s) (hi : InvDB s) :
    WF (ProcessLoan uid bid days today s).1 ∧
      InvDB (ProcessLoan uid bid days today s).1 := by
  unfold ProcessLoan
  split_ifs with h1 h2 h3
  · exact ⟨hw, hi⟩
  · exact ⟨hw, hi⟩
  · exact ⟨hw, hi⟩
  · obtain ⟨hbnd, hlnd, hlt⟩ := hw
    refine ⟨⟨?_, ?_, ?_⟩, ?_⟩
    · dsimp only
      rw [map_key_upd Book.id
        (fun b => { b with
                    availableCopies := b.availableCopies - 1
                    status := if b.availableCopies - 1 = 0 then
                        BookStatus.checkedOut
                      else b.status })
        bid (fun x => rfl) s.books]
      exact hbnd
    · dsimp only
      rw [List.map_cons, List.nodup_cons]
      refine ⟨?_, hlnd⟩
      intro hmem
      rw [List.mem_map] at hmem
      obtain ⟨l, hl, hid⟩ := hmem
      have : l.id ≠ s.nextLoanId := Nat.ne_of_lt (hlt l hl)
      exact this hid
    · intro l hl
      dsimp only at hl ⊢
      rcases List.mem_cons.mp hl with rfl | hl
      · exact Nat.lt_succ_self _
      · exact Nat.lt_succ_of_lt (hlt l hl)
    · intro b' hb'
      dsimp only at hb' ⊢
      rw [List.mem_map] at hb'
      obtain ⟨b, hb, rfl⟩ := hb'
      have hInv := hi b hb
      by_cases h : b.id = bid
      · have hfb : findBook s bid = some b :=
          find_nodup Book.id bid b s.books hbnd hb h
        have hpos : 0 < b.availableCopies := by
          unfold bookAvail at h1
          rw [hfb] at h1
          simp at h1
          omega
        rw [if_pos h]
        have hcount : openLoanCount
            (⟨s.nextLoanId, uid, bid, today, today + days, none, 0,
              LoanStatus.active, 0⟩ :: s.loans) b.id
            = openLoanCount s.loans b.id + 1 := by
          unfold openLoanCount
          rw [List.countP_cons]
          have : (decide ((⟨s.nextLoanId, uid, bid, today, today + days, none, 0,
              LoanStatus.active, 0⟩ : Loan).bookId = b.id)
              && isOpen LoanStatus.active) = true := by
            dsimp only
            rw [h]
            simp [isOpen]
          rw [this]
          simp
        rw [hcount]
        dsimp only
        constructor
        · omega
        · have := hInv.2
          push_cast
          push_cast at this
          omega
      · rw [if_neg h]
        have hcount : openLoanCount
            (⟨s.nextLoanId, uid, bid, today, today + days, none, 0,
              LoanStatus.active, 0⟩ :: s.loans) b.id
            = openLoanCount s.loans b.id := by
          unfold openLoanCount
          rw [List.countP_cons]
          have : (decide ((⟨s.nextLoanId, uid, bid, today, today + days, none, 0,
              LoanStatus.active, 0⟩ : Loan).bookId = b.id)
              && isOpen LoanStatus.active) = false := by
            dsimp only
            rw [decide_eq_false (fun hh => h (hh.symm))]
            rfl
          rw [this]
          rfl
        rw [hcount]
        exact hInv

theorem step_return (lid : Nat) (r : Int) (s : DB) (hw : WF s) (hi : InvDB s) :
    WF (ReturnBook lid r s).1 ∧ InvDB (ReturnBook lid r s).1 := by
  obtain ⟨hbnd, hlnd, hlt⟩ := hw
  unfold ReturnBook
  cases hf : s.loans.find?
      (fun l => decide (l.id = lid ∧ l.status = LoanStatus.active)) with
  | none =>
      simp only [hf]
      refine ⟨⟨hbnd, ?_, ?_⟩, ?_⟩
      · dsimp only
        rw [map_key_upd Loan.id
          (fun l => { l with
                      returnDate := some r
                      status := LoanStatus.returned
                      fine := 0 })
          lid (fun x => rfl) s.loans]
        exact hlnd
      · intro l hl
        dsimp only at hl ⊢
        rw [List.mem_map] at hl
        obtain ⟨l1, hl1, rfl⟩ := hl
        by_cases h : l1.id = lid
        · rw [if_pos h]
          exact hlt l1 hl1
        · rw [if_neg h]
          exact hlt l1 hl1
      · intro b hb
        dsimp only at hb ⊢
        have hInv := hi b hb
        have hle : (s.loans.map fun l =>
            if l.id = lid then
              { l with
                returnDate := some r
                status := LoanStatus.returned
                fine := 0 }
            else l).countP (fun l => decide (l.bookId = b.id) && isOpen l.status)
            ≤ s.loans.countP (fun l => decide (l.bookId = b.id) && isOpen l.status) := by
          refine countP_map_le _ _ _ ?_ s.loans
          intro x hx
          by_cases h : x.id = lid
          · rw [if_pos h] at hx
            simp [isOpen] at hx
          · rw [if_neg h] at hx
            exact hx
        unfold openLoanCount
        have h1 := hInv.1
        have h2 := hInv.2
        unfold openLoanCount at h2
        constructor
        · exact h1
        · omega
  | some l1 =>
      simp only [hf]
      have hp := List.find?_some hf
      rw [decide_eq_true_eq] at hp
      have hm := List.mem_of_find?_eq_some hf
      refine ⟨⟨?_, ?_, ?_⟩, ?_⟩
      · dsimp only
        rw [map_key_upd Book.id
          (fun b => { b with
                      availableCopies := b.availableCopies + 1
                      status := BookStatus.available })
          l1.bookId (fun x => rfl) s.books]
        exact hbnd
      · dsimp only
        rw [map_key_upd Loan.id
          (fun l => { l with
                      returnDate := some r
                      status := LoanStatus.returned
                      fine := if l1.dueDate < r then (r - l1.dueDate) * 50 else 0 })
          lid (fun x => rfl) s.loans]
        exact hlnd
      · intro l hl
        dsimp only at hl ⊢
        rw [List.mem_map] at hl
        obtain ⟨l2, hl2, rfl⟩ := hl
        by_cases h : l2.id = lid
        · rw [if_pos h]
          exact hlt l2 hl2
        · rw [if_neg h]
          exact hlt l2 hl2
      · intro b' hb'
        dsimp only at hb' ⊢
        rw [List.mem_map] at hb'
        obtain ⟨b, hb, rfl⟩ := hb'
        have hInv := hi b hb
        have hupd := countP_upd Loan.id
          (fun l => { l with
                      returnDate := some r
                      status := LoanStatus.returned
                      fine := if l1.dueDate < r then (r - l1.dueDate) * 50 else 0 })
          lid (fun l => decide (l.bookId = b.id) && isOpen l.status)
          l1 s.loans hlnd hm hp.1
        by_cases h : b.id = l1.bookId
        · have hpl1 : (decide (l1.bookId = b.id) && isOpen l1.status) = true := by
            rw [hp.2]
            rw [decide_eq_true (h.symm)]
            rfl
          have hpg : (decide (l1.bookId = b.id)
              && isOpen LoanStatus.returned) = false := by
            simp [isOpen]
          rw [if_pos h]
          dsimp only
          unfold openLoanCount at hInv ⊢
          dsimp only at hupd
          rw [hpl1, hpg] at hupd
          rw [show (if (true = true) then 1 else 0) = 1 from rfl,
            show (if (false = true) then 1 else 0) = 0 from rfl] at hupd
          have h1 := hInv.1
          have h2 := hInv.2
          constructor
          · omega
          · omega
        · have hpl1 : (decide (l1.bookId = b.id) && isOpen l1.status) = false := by
            rw [decide_eq_false (fun hh => h hh.symm)]
            rfl
          have hpg : (decide (l1.bookId = b.id)
              && isOpen LoanStatus.returned) = false := by
            simp [isOpen]
          rw [if_neg h]
          unfold openLoanCount at hInv ⊢
          dsimp only at hupd
          rw [hpl1, hpg] at hupd
          rw [show (if (false = true) then 1 else 0) = 0 from rfl] at hupd
          have h1 := hInv.1
          have h2 := hInv.2
          constructor
          · omega
          · omega

/-- A library with a single copy of a single title, used to exhibit the
inventory-invariant violation of the TypeScript return path. -/
def demoOneCopyDB : DB :=
  { books := [{ id := 1
                totalCopies := 1
                availableCopies := 1
                status := BookStatus.available }],
    loans := [], users := [demoUser], nextLoanId := 1 }

/-- The state after borrowing the single copy through the route and then
returning the same loan twice through the route. -/
def demoDoubleReturnState : DB :=
  (routeReturnBook 1 6 (routeReturnBook 1 5 (routeCreateLoan
    { userId := 7, bookId := 1, loanDate := 0, dueDate := 14 }
    demoOneCopyDB).1).1).1

/-- C6 counterexample: starting from a well-formed single-copy state
that satisfies the inventory invariant, the operation sequence
create-loan, return, return (all through the TypeScript routes, which
accept a second return of an already-returned loan) leaves the book with
`available_copies = 2` while `total_copies = 1`, violating
`available_copies <= total_copies`. -/
theorem inventory_invariant_cex :
    WF demoOneCopyDB ∧ InvDB demoOneCopyDB ∧
    (findBook demoDoubleReturnState 1).map Book.availableCopies = some 2 ∧
    (findBook demoDoubleReturnState 1).map Book.totalCopies = some 1 := by
  decide

/-- C6 amended: the invariant `0 <= available_copies` and
`available_copies + open loans <= total_copies` (hence
`available_copies <= total_copies`) is preserved by every sequence of
the SQL procedures `ProcessLoan` and `ReturnBook` and of the renewal
route, from any well-formed state satisfying it.  The TypeScript return
path breaks it because it increments unconditionally: a second return of
the same loan pushes `available_copies` above `total_copies` (see the
counterexample). -/
theorem inventory_invariant (ops : List LibOp) (s : DB)
    (hw : WF s) (hi : InvDB s) :
    WF (applyOps ops s) ∧ InvDB (applyOps ops s) := by
  induction ops generalizing s with
  | nil => exact ⟨hw, hi⟩
  | cons op ops ih =>
      have hstep : WF (applyOp op s) ∧ InvDB (applyOp op s) := by
        cases op with
        | create uid bid days today => exact step_process uid bid days today s ⟨hw.1, hw.2.1, hw.2.2⟩ hi
        | ret lid rdate => exact step_return lid rdate s ⟨hw.1, hw.2.1, hw.2.2⟩ hi
        | renew lid => exact step_renew lid s ⟨hw.1, hw.2.1, hw.2.2⟩ hi
      exact ih (applyOp op s) hstep.1 hstep.2

/-- Witness for C6's amended statement: a concrete mixed sequence
(create through `ProcessLoan`, renew, return through `ReturnBook`,
a failing second return) keeps the demo state well-formed and inside the
inventory invariant. -/
theorem inventory_invariant_witness :
    WF (applyOps [LibOp.create 7 1 14 0, LibOp.renew 1, LibOp.ret 1 20,
        LibOp.ret 1 25] demoDB) ∧
    InvDB (applyOps [LibOp.create 7 1 14 0, LibOp.renew 1, LibOp.ret 1 20,
        LibOp.ret 1 25] demoDB) :=
  inventory_invariant [LibOp.create 7 1 14 0, LibOp.renew 1, LibOp.ret 1 20,
    LibOp.ret 1 25] demoDB (by decide) (by decide)
